import Mathlib

/-!
# MoviePathways itinerary engine — shallow embedding and verification

A shallow embedding, in Lean 4, of the itinerary-generation core of the
MoviePathways application (`src/utils.ts` and the type declarations in
`src/types.ts`), together with theorems checking the natural-language
specification against it.

Modelling conventions:
* TypeScript `number` values that the engine treats as integers
  (millisecond timestamps, minutes, ranks, counts, settings) are `Int`.
* TypeScript string identifiers (`Id`) are `String`.
* `Set` objects used only for membership tests are `List Id` in insertion
  order; `Map` lookup built from an entry list is a fold where a later
  entry with the same key wins, as for JavaScript `new Map(entries)`.
* `Array.prototype.sort` (stable since ES2019) with a consistent comparator
  `c` is modelled by `List.insertionSort` with the relation `c a b ≤ 0`,
  which is a stable sort producing the same ordering.
* `Array.prototype.slice(0, e)` is `jsSlice`, including the JavaScript
  treatment of a negative end index.
* The host date parser invoked by `new Date(local).getTime()` is modelled
  by an explicit civil-calendar parser for the `"YYYY-MM-DDTHH:mm"` shape
  the application stores, with the local time zone taken to be UTC;
  failure (`NaN` in the source) is `Option.none`.
-/

namespace MoviePathways

/-- `Id` from `types.ts`: identifiers are strings. -/
abbrev Id := String

/-- `Movie` from `types.ts`. `rank` is optional; `none` means unranked. -/
structure Movie where
  id : Id
  title : String
  runtimeMins : Int
  rank : Option Int := none
deriving DecidableEq, Repr

/-- `Theater` from `types.ts`. -/
structure Theater where
  id : Id
  name : String
deriving DecidableEq, Repr

/-- `Showtime` from `types.ts`: a raw event entry with its start stored as a
`"YYYY-MM-DDTHH:mm"` local string. -/
structure Showtime where
  id : Id
  movieId : Id
  theaterId : Id
  startLocal : String
deriving DecidableEq, Repr

/-- `Settings` from `types.ts`: leeway X, travel T, max results K, beam width W. -/
structure Settings where
  trailerLeewayMins : Int
  travelMins : Int
  maxResults : Int
  beamWidth : Int
deriving DecidableEq, Repr

/-- `AppState` from `types.ts`. -/
structure AppState where
  settings : Settings
  movies : List Movie
  theaters : List Theater
  showtimes : List Showtime
deriving DecidableEq, Repr

/-- `ScheduledShow` from `types.ts`: a time-resolved showtime instance. -/
structure ScheduledShow where
  showtimeId : Id
  movieId : Id
  theaterId : Id
  startMs : Int
  endMs : Int
deriving DecidableEq, Inhabited, Repr

/-- `Itinerary` from `types.ts`: a finalized chain of scheduled shows. -/
structure Itinerary where
  shows : List ScheduledShow
  preferenceScore : Int
  movieCount : Int
  finishMs : Int
  totalTravelMins : Int
deriving DecidableEq, Repr

/-- `clampInt` from `utils.ts`: clamp `n` into `[min, max]`. On `Int` the
source's `Math.trunc` is the identity and the `Number.isFinite` guard has no
counterpart (there is no non-finite `Int`). -/
def clampInt (n mn mx : Int) : Int :=
  max mn (min mx n)

/-- Numeric value of a decimal digit character; `none` on a non-digit. -/
def digitVal (c : Char) : Option Nat :=
  if '0' ≤ c ∧ c ≤ '9' then some (c.toNat - '0'.toNat) else none

/-- Two decimal digits as a number. -/
def num2 (a b : Char) : Option Nat := do
  let x ← digitVal a
  let y ← digitVal b
  pure (10 * x + y)

/-- Four decimal digits as a number. -/
def num4 (a b c d : Char) : Option Nat := do
  let x ← num2 a b
  let y ← num2 c d
  pure (100 * x + y)

/-- Gregorian leap-year test. -/
def isLeapYear (y : Nat) : Bool :=
  (y % 4 == 0 && y % 100 != 0) || y % 400 == 0

/-- Number of leap years in `[1, n]` (for the epoch day count). -/
def leapCount (n : Int) : Int :=
  n.ediv 4 - n.ediv 100 + n.ediv 400

/-- Cumulative number of days before month `m` (1-based) in a year. -/
def monthOffset (leap : Bool) (m : Nat) : Nat :=
  let base := [0, 31, 59, 90, 120, 151, 181, 212, 243, 273, 304, 334].getD (m - 1) 0
  if leap ∧ m > 2 then base + 1 else base

/-- Number of days in month `m` (1-based) of a year. -/
def daysInMonth (leap : Bool) (m : Nat) : Nat :=
  if m = 2 then (if leap then 29 else 28)
  else if m = 4 ∨ m = 6 ∨ m = 9 ∨ m = 11 then 30 else 31

/-- `parseLocalDateTimeToMs` from `utils.ts`. The source delegates to the host
platform (`new Date(local).getTime()`, `NaN` on failure); this models that
parser for the `"YYYY-MM-DDTHH:mm"` shape the application stores, with the
local time zone taken to be UTC, and returns `none` where the source returns
`NaN`. -/
def parseLocalDateTimeToMs (s : String) : Option Int :=
  match s.data with
  | [y1, y2, y3, y4, c1, m1, m2, c2, d1, d2, c3, h1, h2, c4, n1, n2] =>
    if c1 = '-' ∧ c2 = '-' ∧ c3 = 'T' ∧ c4 = ':' then do
      let y ← num4 y1 y2 y3 y4
      let mo ← num2 m1 m2
      let d ← num2 d1 d2
      let h ← num2 h1 h2
      let mi ← num2 n1 n2
      let leap := isLeapYear y
      if 1 ≤ mo ∧ mo ≤ 12 ∧ 1 ≤ d ∧ d ≤ daysInMonth leap mo ∧ h ≤ 23 ∧ mi ≤ 59 then
        let days : Int :=
          365 * ((y : Int) - 1970) + (leapCount ((y : Int) - 1) - leapCount 1969)
            + (monthOffset leap mo : Int) + (d : Int) - 1
        some (days * 86400000 + (h : Int) * 3600000 + (mi : Int) * 60000)
      else none
    else none
  | _ => none

/-- `moviePreferencePoints` from `utils.ts`: unranked movies score 0, ranked
movies score `100000 - clampInt(rank, 1, 9999)`. -/
def moviePreferencePoints (movie : Movie) : Int :=
  match movie.rank with
  | none => 0
  | some rk => 100000 - clampInt rk 1 9999

/-- Lookup in a JavaScript `Map` built by `new Map(list.map(m => [m.id, m]))`:
a later entry with the same key overwrites an earlier one. -/
def mapGet (movies : List Movie) (mid : Id) : Option Movie :=
  movies.foldl (fun acc m => if m.id = mid then some m else acc) none

/-- The one surviving-entry computation inside the `buildScheduledShows` loop:
resolve the movie, parse the start, compute `endMs = startMs + runtime·60000`. -/
def resolveShowtime (movies : List Movie) (st : Showtime) : Option ScheduledShow :=
  match mapGet movies st.movieId with
  | none => none
  | some m =>
    match parseLocalDateTimeToMs st.startLocal with
    | none => none
    | some startMs =>
      some { showtimeId := st.id, movieId := st.movieId, theaterId := st.theaterId,
             startMs := startMs, endMs := startMs + m.runtimeMins * 60000 }

/-- Comparison relation of the `buildScheduledShows` sort: `a.startMs - b.startMs ≤ 0`. -/
def showLE (a b : ScheduledShow) : Prop := a.startMs ≤ b.startMs

instance : DecidableRel showLE := fun a b => Int.decLe a.startMs b.startMs

instance : IsTotal ScheduledShow showLE := ⟨fun a b => Int.le_total a.startMs b.startMs⟩

instance : IsTrans ScheduledShow showLE := ⟨fun _ _ _ h h' => Int.le_trans h h'⟩

/-- `buildScheduledShows` from `utils.ts`: drop entries with a dangling movie
reference or an unparsable start, compute end instants, and stably sort the
survivors by start instant. -/
def buildScheduledShows (state : AppState) : List ScheduledShow :=
  (state.showtimes.filterMap (resolveShowtime state.movies)).insertionSort showLE

/-- Result record of `canTransition` in `utils.ts`. -/
structure TransitionResult where
  ok : Bool
  travelAppliedMins : Int
deriving DecidableEq, Repr

/-- `canTransition` from `utils.ts`: can we go from show `a` to show `b` given
leeway `trailerLeewayMins` and travel `travelMins`? -/
def canTransition (a b : ScheduledShow) (trailerLeewayMins travelMins : Int) :
    TransitionResult :=
  if b.startMs < a.startMs then { ok := false, travelAppliedMins := 0 }
  else
    let travelAppliedMins := if a.theaterId = b.theaterId then 0 else travelMins
    let arriveDeadlineMs := b.startMs + trailerLeewayMins * 60000
    let earliestArrivalMs := a.endMs + travelAppliedMins * 60000
    { ok := decide (earliestArrivalMs ≤ arriveDeadlineMs),
      travelAppliedMins := travelAppliedMins }

/-- `itineraryScore` from `utils.ts` (sort key triple; finish negated so that
higher is better in every component). -/
def itineraryScore (it : Itinerary) : Int × Int × Int :=
  (it.preferenceScore, it.movieCount, -it.finishMs)

/-- Value of the `sortItineraries` comparator on a pair: negative or zero
means `a` may stay before `b`. -/
def itinCmpVal (a b : Itinerary) : Int :=
  if b.preferenceScore ≠ a.preferenceScore then b.preferenceScore - a.preferenceScore
  else if b.movieCount ≠ a.movieCount then b.movieCount - a.movieCount
  else a.finishMs - b.finishMs

/-- Ordering relation induced by the `sortItineraries` comparator. -/
def itinLE (a b : Itinerary) : Prop := itinCmpVal a b ≤ 0

instance : DecidableRel itinLE := fun a b => Int.decLe (itinCmpVal a b) 0

/-- `sortItineraries` from `utils.ts`: stable sort by preference score
descending, then movie count descending, then finish instant ascending. -/
def sortItineraries (its : List Itinerary) : List Itinerary :=
  its.insertionSort itinLE

/-- `Array.prototype.slice(0, e)` with integer `e`: a negative end index
counts back from the end of the array. -/
def jsSlice {α : Type} (l : List α) (e : Int) : List α :=
  if e < 0 then l.take (l.length + e).toNat else l.take e.toNat

/-- The `Partial` record of the beam search inside `generateItineraries`
(named `PartialChain` in the design document): a partial itinerary under
construction. The two `Set` fields are kept as lists in insertion order. -/
structure PartialChain where
  lastIdx : Nat
  usedMovieIds : List Id
  usedShowtimeIds : List Id
  shows : List ScheduledShow
  preferenceScore : Int
  totalTravelMins : Int
deriving DecidableEq, Repr

/-- The forward adjacency of instance `i` (`nexts[i]` paired with
`travelCost[i]` in the source): each feasible successor index `j > i`
with the travel minutes `canTransition` applied, in increasing `j`. -/
def nextsOf (shows : List ScheduledShow) (X T : Int) (i : Nat) : List (Nat × Int) :=
  (List.range shows.length).filterMap fun j =>
    if i < j then
      let r := canTransition (shows.getD i default) (shows.getD j default) X T
      if r.ok then some (j, r.travelAppliedMins) else none
    else none

/-- Preference points contributed by the movie of a scheduled show, with the
source's defensive `0` when the movie lookup fails (`m ? points(m) : 0`). -/
def showPoints (movies : List Movie) (s : ScheduledShow) : Int :=
  match mapGet movies s.movieId with
  | some m => moviePreferencePoints m
  | none => 0

/-- The `initial` beam of `generateItineraries`: one length-1 partial chain
per scheduled show. -/
def initialBeam (movies : List Movie) (shows : List ScheduledShow) :
    List PartialChain :=
  shows.enum.map fun p =>
    { lastIdx := p.1,
      usedMovieIds := [p.2.movieId],
      usedShowtimeIds := [p.2.showtimeId],
      shows := [p.2],
      preferenceScore := showPoints movies p.2,
      totalTravelMins := 0 }

/-- Conversion of a partial chain into an `Itinerary` inside `finalize`. -/
def itineraryOf (p : PartialChain) : Itinerary :=
  { shows := p.shows,
    preferenceScore := p.preferenceScore,
    movieCount := (p.shows.length : Int),
    finishMs := (p.shows.getLastD default).endMs,
    totalTravelMins := p.totalTravelMins }

/-- The deduplication key of `finalize`: showtime ids joined with `">"`. -/
def itinKey (it : Itinerary) : String :=
  String.intercalate ">" (it.shows.map (·.showtimeId))

/-- `finalize` applied to every member of the current beam in order,
threading the `finished` list and the `seenItineraryKeys` set. -/
def finalizeAll (beam : List PartialChain) (acc : List Itinerary × List String) :
    List Itinerary × List String :=
  beam.foldl
    (fun fs p =>
      let it := itineraryOf p
      let key := itinKey it
      if fs.2.contains key then fs else (fs.1 ++ [it], fs.2 ++ [key]))
    acc

/-- One beam member's expansions: follow every outgoing edge of its last
instance, rejecting successors whose showtime id or movie id is already used. -/
def expandChain (movies : List Movie) (shows : List ScheduledShow) (X T : Int)
    (p : PartialChain) : List PartialChain :=
  (nextsOf shows X T p.lastIdx).filterMap fun jc =>
    let nextShow := shows.getD jc.1 default
    if p.usedShowtimeIds.contains nextShow.showtimeId then none
    else if p.usedMovieIds.contains nextShow.movieId then none
    else
      some { lastIdx := jc.1,
             usedMovieIds := p.usedMovieIds ++ [nextShow.movieId],
             usedShowtimeIds := p.usedShowtimeIds ++ [nextShow.showtimeId],
             shows := p.shows ++ [nextShow],
             preferenceScore := p.preferenceScore + showPoints movies nextShow,
             totalTravelMins := p.totalTravelMins + jc.2 }

/-- Value of the beam-pruning comparator on a pair of partial chains:
preference score descending, chain length descending, finish ascending,
total travel ascending. -/
def beamCmpVal (a b : PartialChain) : Int :=
  if b.preferenceScore ≠ a.preferenceScore then b.preferenceScore - a.preferenceScore
  else if b.shows.length ≠ a.shows.length then (b.shows.length : Int) - (a.shows.length : Int)
  else
    let af := (a.shows.getLastD default).endMs
    let bf := (b.shows.getLastD default).endMs
    if af ≠ bf then af - bf
    else a.totalTravelMins - b.totalTravelMins

/-- Ordering relation induced by the beam-pruning comparator. -/
def beamLE (a b : PartialChain) : Prop := beamCmpVal a b ≤ 0

instance : DecidableRel beamLE := fun a b => Int.decLe (beamCmpVal a b) 0

/-- The `for (let step = 0; step < n; step++)` beam-search loop of
`generateItineraries`, with the remaining step count as fuel: finalize the
beam, expand it, stop if no expansion, otherwise sort the expansions and
keep the best `W`. Returns the `finished` list. -/
def beamLoop (movies : List Movie) (shows : List ScheduledShow) (X T W : Int) :
    Nat → List PartialChain → List Itinerary × List String → List Itinerary
  | 0, _, acc => acc.1
  | Nat.succ fuel, beam, acc =>
    let acc' := finalizeAll beam acc
    let expanded := beam.flatMap (expandChain movies shows X T)
    if expanded.isEmpty then acc'.1
    else beamLoop movies shows X T W fuel
      (jsSlice (expanded.insertionSort beamLE) W) acc'

/-- The `finished` list accumulated by the beam search of
`generateItineraries` (the deduplicated itinerary set before the final
sort-and-truncate). -/
def generateFinished (state : AppState) : List Itinerary :=
  let shows := buildScheduledShows state
  beamLoop state.movies shows state.settings.trailerLeewayMins
    state.settings.travelMins state.settings.beamWidth shows.length
    (initialBeam state.movies shows) ([], [])

/-- `generateItineraries` from `utils.ts`: build the scheduled instances,
run the beam search, and return the sorted, deduplicated, truncated result. -/
def generateItineraries (state : AppState) : List Itinerary :=
  let shows := buildScheduledShows state
  if shows.length = 0 then []
  else
    jsSlice (sortItineraries (generateFinished state))
      (clampInt state.settings.maxResults 1 200)

/-- `buildDefaultState` from `utils.ts`. -/
def buildDefaultState : AppState :=
  { settings :=
      { trailerLeewayMins := 20, travelMins := 15, maxResults := 20, beamWidth := 200 },
    movies := [], theaters := [], showtimes := [] }

/-- Best (maximum) preference score among a list of itineraries, 0 if empty. -/
def bestPreferenceScore (its : List Itinerary) : Int :=
  (its.map (·.preferenceScore)).foldr max 0

/-! ### Predicates used to state the chain invariants -/

/-- The transition-feasibility relation of §4.2 between two consecutive
shows of a chain: `canTransition` accepts the pair. -/
def FeasiblePair (X T : Int) (a b : ScheduledShow) : Prop :=
  (canTransition a b X T).ok = true

/-- Invariant maintained by every `PartialChain` of the beam search: a
non-empty pairwise-feasible chain with no repeated movie or showtime
identity, whose bookkeeping fields agree with its `shows` sequence. -/
def ChainInv (shows : List ScheduledShow) (X T : Int) (p : PartialChain) : Prop :=
  p.shows ≠ [] ∧
  p.shows.Chain' (FeasiblePair X T) ∧
  (p.shows.map (·.movieId)).Nodup ∧
  (p.shows.map (·.showtimeId)).Nodup ∧
  p.usedMovieIds = p.shows.map (·.movieId) ∧
  p.usedShowtimeIds = p.shows.map (·.showtimeId) ∧
  p.shows.getLast? = some (shows.getD p.lastIdx default)

/-- The chain properties that survive into a finalized itinerary. -/
def GoodShows (X T : Int) (l : List ScheduledShow) : Prop :=
  l.Chain' (FeasiblePair X T) ∧
  (l.map (·.movieId)).Nodup ∧
  (l.map (·.showtimeId)).Nodup

instance : IsTotal Itinerary itinLE :=
  ⟨by
    intro a b
    unfold itinLE itinCmpVal
    split_ifs <;> omega⟩

instance : IsTrans Itinerary itinLE :=
  ⟨by
    intro a b c
    unfold itinLE itinCmpVal
    split_ifs <;> omega⟩

/-! ### Concrete inputs used by witnesses and counterexamples -/

/-- A one-movie, one-theater, one-showtime state (Scenario A of the spec). -/
def oneShowState : AppState :=
  { settings := { trailerLeewayMins := 20, travelMins := 15, maxResults := 20, beamWidth := 200 },
    movies := [{ id := "m1", title := "M1", runtimeMins := 60 }],
    theaters := [{ id := "t1", name := "T1" }],
    showtimes := [{ id := "s1", movieId := "m1", theaterId := "t1",
                    startLocal := "1970-01-01T10:00" }] }

/-- The single itinerary produced by `oneShowState`. -/
def oneShowItinerary : Itinerary :=
  { shows := [{ showtimeId := "s1", movieId := "m1", theaterId := "t1",
                startMs := 36000000, endMs := 39600000 }],
    preferenceScore := 0, movieCount := 1, finishMs := 39600000, totalTravelMins := 0 }

/-- `oneShowState` with `maxResults = 0` and `beamWidth = 0`. -/
def oneShowStateKW0 : AppState :=
  { oneShowState with
    settings := { trailerLeewayMins := 20, travelMins := 15, maxResults := 0, beamWidth := 0 } }

/-- A one-show state with `maxResults = 0` (for the result-length bound). -/
def oneShowStateK0 : AppState :=
  { settings := { trailerLeewayMins := 5, travelMins := 5, maxResults := 0, beamWidth := 50 },
    movies := [{ id := "mv", title := "MV", runtimeMins := 90 }],
    theaters := [{ id := "th", name := "TH" }],
    showtimes := [{ id := "sw", movieId := "mv", theaterId := "th",
                    startLocal := "1970-01-02T12:00" }] }

/-- Two-movie, same-theater, back-to-back state (Scenario B of the spec),
with leeway 0. -/
def backToBackState : AppState :=
  { settings := { trailerLeewayMins := 0, travelMins := 15, maxResults := 20, beamWidth := 200 },
    movies := [{ id := "m1", title := "M1", runtimeMins := 60 },
               { id := "m2", title := "M2", runtimeMins := 90 }],
    theaters := [{ id := "t1", name := "T1" }],
    showtimes := [{ id := "s1", movieId := "m1", theaterId := "t1",
                    startLocal := "1970-01-01T10:00" },
                  { id := "s2", movieId := "m2", theaterId := "t1",
                    startLocal := "1970-01-01T11:00" }] }

/-- The two-show itinerary produced by `backToBackState`. -/
def backToBackItinerary : Itinerary :=
  { shows := [{ showtimeId := "s1", movieId := "m1", theaterId := "t1",
                startMs := 36000000, endMs := 39600000 },
              { showtimeId := "s2", movieId := "m2", theaterId := "t1",
                startMs := 39600000, endMs := 45000000 }],
    preferenceScore := 0, movieCount := 2, finishMs := 45000000, totalTravelMins := 0 }

/-- Movie pool for the beam-width counterexample: eight ten-minute movies
with ranks chosen so that a narrow beam finds the four-movie theater-P chain
while a wider beam is lured onto the dead-end theater-Q branch. -/
def beamTrapMovies : List Movie :=
  [{ id := "m1", title := "M1", runtimeMins := 10, rank := some 1 },
   { id := "m2", title := "M2", runtimeMins := 10, rank := some 2 },
   { id := "m1p", title := "M1p", runtimeMins := 10, rank := some 3 },
   { id := "m2p", title := "M2p", runtimeMins := 10, rank := some 4 },
   { id := "m5", title := "M5", runtimeMins := 10, rank := some 5 },
   { id := "m6", title := "M6", runtimeMins := 10, rank := some 5 },
   { id := "m3", title := "M3", runtimeMins := 10, rank := some 10 },
   { id := "m4", title := "M4", runtimeMins := 10, rank := some 11 }]

/-- Showtimes for the beam-width counterexample: two theaters `P` and `Q`
(travel between them made infeasible by a huge travel setting). -/
def beamTrapShowtimes : List Showtime :=
  [{ id := "s1", movieId := "m1", theaterId := "P", startLocal := "1970-01-01T10:00" },
   { id := "s1p", movieId := "m1p", theaterId := "Q", startLocal := "1970-01-01T10:00" },
   { id := "s2", movieId := "m2", theaterId := "P", startLocal := "1970-01-01T10:10" },
   { id := "s2p", movieId := "m2p", theaterId := "Q", startLocal := "1970-01-01T10:10" },
   { id := "s3", movieId := "m3", theaterId := "P", startLocal := "1970-01-01T10:20" },
   { id := "s5", movieId := "m5", theaterId := "Q", startLocal := "1970-01-01T10:20" },
   { id := "s6", movieId := "m6", theaterId := "Q", startLocal := "1970-01-01T10:25" },
   { id := "s4", movieId := "m4", theaterId := "P", startLocal := "1970-01-01T10:30" }]

/-- The beam-width counterexample state, parametrised over the beam width
only: leeway 0, travel 100000 minutes, max results 200. -/
def beamTrapState (w : Int) : AppState :=
  { settings := { trailerLeewayMins := 0, travelMins := 100000, maxResults := 200, beamWidth := w },
    movies := beamTrapMovies,
    theaters := [{ id := "P", name := "P" }, { id := "Q", name := "Q" }],
    showtimes := beamTrapShowtimes }

/-- A movie carrying rank 9999 (the top of the clamping range). -/
def movieRank9999 : Movie := { id := "a", title := "A", runtimeMins := 100, rank := some 9999 }

/-- A movie carrying rank 10000 (beyond the clamping range). -/
def movieRank10000 : Movie := { id := "b", title := "B", runtimeMins := 100, rank := some 10000 }

/-- A 100-minute show starting at instant 0. -/
def overlapShowA : ScheduledShow :=
  { showtimeId := "sa", movieId := "ma", theaterId := "t1", startMs := 0, endMs := 6000000 }

/-- A show starting 50 minutes into `overlapShowA` (wall-clock overlap). -/
def overlapShowB : ScheduledShow :=
  { showtimeId := "sb", movieId := "mb", theaterId := "t1", startMs := 3000000, endMs := 9000000 }

/-! ## Theorems -/

/-- C3: `canTransition` returns `ok = false` with zero applied travel whenever
`B` starts before `A`; otherwise the applied travel is 0 for a same-theater
pair and `T` for a cross-theater pair, and the transition is feasible exactly
when `A.end` plus the applied travel (converted to milliseconds) is at most
`B.start` plus the leeway `X` (converted to milliseconds). -/
theorem canTransition_spec (a b : ScheduledShow) (X T : Int) :
    (b.startMs < a.startMs →
      canTransition a b X T = { ok := false, travelAppliedMins := 0 }) ∧
    (a.startMs ≤ b.startMs →
      (canTransition a b X T).travelAppliedMins =
        (if a.theaterId = b.theaterId then 0 else T) ∧
      ((canTransition a b X T).ok = true ↔
        a.endMs + (if a.theaterId = b.theaterId then 0 else T) * 60000 ≤
          b.startMs + X * 60000)) := by
  constructor
  · intro h
    simp [canTransition, h]
  · intro h
    have h' : ¬ b.startMs < a.startMs := not_lt.mpr h
    constructor
    · simp [canTransition, h']
    · simp [canTransition, h']

/-- Witness for `canTransition_spec` at a concrete cross-theater pair: a
90-minute show at theater `t1` from instant 0, followed by a show at theater
`t2` starting at 100 minutes, with leeway 5 and travel 10 minutes. -/
theorem canTransition_spec_witness :
    (canTransition { showtimeId := "w1", movieId := "wm1", theaterId := "t1",
                     startMs := 0, endMs := 5400000 }
                   { showtimeId := "w2", movieId := "wm2", theaterId := "t2",
                     startMs := 6000000, endMs := 9600000 }
                   5 10).travelAppliedMins = 10 ∧
    ((canTransition { showtimeId := "w1", movieId := "wm1", theaterId := "t1",
                      startMs := 0, endMs := 5400000 }
                    { showtimeId := "w2", movieId := "wm2", theaterId := "t2",
                      startMs := 6000000, endMs := 9600000 }
                    5 10).ok = true ↔
      (5400000 : Int) + 10 * 60000 ≤ 6000000 + 5 * 60000) := by
  have h := (canTransition_spec
    { showtimeId := "w1", movieId := "wm1", theaterId := "t1",
      startMs := 0, endMs := 5400000 }
    { showtimeId := "w2", movieId := "wm2", theaterId := "t2",
      startMs := 6000000, endMs := 9600000 } 5 10).2 (by decide)
  refine ⟨h.1.trans (by decide), ?_⟩
  have e : ((if ("t1" : Id) = "t2" then (0 : Int) else 10)) = 10 := by decide
  rw [e] at h
  exact h.2

/-- C9: the ordering guard of `canTransition` compares start instants only, so
two wall-clock-overlapping shows (`A.start ≤ B.start < A.end`) can be judged
feasible: here `B` starts 50 minutes into the 100-minute show `A` at the same
theater, and with leeway 60 the transition is accepted. -/
theorem canTransition_overlap_feasible :
    overlapShowA.startMs ≤ overlapShowB.startMs ∧
    overlapShowB.startMs < overlapShowA.endMs ∧
    (canTransition overlapShowA overlapShowB 60 0).ok = true := by decide

/-- C5 counterexample: ranks 9999 and 10000 are distinct, yet both movies
receive the same contribution (the rank is clamped into `[1, 9999]` before
the subtraction), and the rank-10000 contribution is not `100000 - 10000`.
This refutes strict monotonicity across all distinct ranks. -/
theorem moviePreferencePoints_not_strict_beyond_cap :
    movieRank9999.rank = some 9999 ∧ movieRank10000.rank = some 10000 ∧
    moviePreferencePoints movieRank9999 = moviePreferencePoints movieRank10000 ∧
    moviePreferencePoints movieRank10000 ≠ 100000 - 10000 := by decide

/-- C5 (amended): an unranked movie contributes 0; a ranked movie with rank
`r` contributes `100000 - clampInt r 1 9999`, always in `[90001, 99999]`;
every ranked movie's contribution strictly exceeds any sum of unranked
contributions; and among ranks inside the clamping range `[1, 9999]` a lower
rank number receives a strictly higher contribution. -/
theorem moviePreferencePoints_spec :
    (∀ m : Movie, m.rank = none → moviePreferencePoints m = 0) ∧
    (∀ (m : Movie) (r : Int), m.rank = some r →
      moviePreferencePoints m = 100000 - clampInt r 1 9999 ∧
      90001 ≤ moviePreferencePoints m ∧ moviePreferencePoints m ≤ 99999) ∧
    (∀ (m : Movie) (r : Int) (l : List Movie), m.rank = some r →
      (∀ u ∈ l, u.rank = none) →
      (l.map moviePreferencePoints).sum < moviePreferencePoints m) ∧
    (∀ (m₁ m₂ : Movie) (r₁ r₂ : Int), m₁.rank = some r₁ → m₂.rank = some r₂ →
      1 ≤ r₁ → r₁ < r₂ → r₂ ≤ 9999 →
      moviePreferencePoints m₂ < moviePreferencePoints m₁) := by
  have hval : ∀ (m : Movie) (r : Int), m.rank = some r →
      moviePreferencePoints m = 100000 - clampInt r 1 9999 := by
    intro m r h
    simp [moviePreferencePoints, h]
  have hbounds : ∀ (r : Int), 90001 ≤ 100000 - clampInt r 1 9999 ∧
      100000 - clampInt r 1 9999 ≤ 99999 := by
    intro r
    unfold clampInt
    omega
  have hsum : ∀ l : List Movie, (∀ u ∈ l, u.rank = none) →
      (l.map moviePreferencePoints).sum = 0 := by
    intro l hl
    induction l with
    | nil => simp
    | cons u t ih =>
      have hu : moviePreferencePoints u = 0 := by
        simp [moviePreferencePoints, hl u (List.mem_cons_self u t)]
      simp [hu, ih fun x hx => hl x (List.mem_cons_of_mem u hx)]
  refine ⟨?_, ?_, ?_, ?_⟩
  · intro m h
    simp [moviePreferencePoints, h]
  · intro m r h
    exact ⟨hval m r h, (hval m r h) ▸ (hbounds r).1, (hval m r h) ▸ (hbounds r).2⟩
  · intro m r l hm hl
    rw [hsum l hl, hval m r hm]
    have := (hbounds r).1
    omega
  · intro m₁ m₂ r₁ r₂ h₁ h₂ hr₁ hlt hr₂
    rw [hval m₁ r₁ h₁, hval m₂ r₂ h₂]
    unfold clampInt
    omega

/-- Witness for `moviePreferencePoints_spec`: an unranked movie scores 0, two
unranked movies together score less than one rank-1 movie, and rank 2 scores
strictly less than rank 1. -/
theorem moviePreferencePoints_spec_witness :
    moviePreferencePoints { id := "u", title := "U", runtimeMins := 90, rank := none } = 0 ∧
    ([{ id := "u1", title := "U1", runtimeMins := 90, rank := none },
      { id := "u2", title := "U2", runtimeMins := 90, rank := none }].map
        moviePreferencePoints).sum <
      moviePreferencePoints { id := "r1", title := "R1", runtimeMins := 90, rank := some 1 } ∧
    moviePreferencePoints { id := "r2", title := "R2", runtimeMins := 90, rank := some 2 } <
      moviePreferencePoints { id := "r1", title := "R1", runtimeMins := 90, rank := some 1 } :=
  ⟨moviePreferencePoints_spec.1 _ rfl,
   moviePreferencePoints_spec.2.2.1 _ 1 _ rfl (by decide),
   moviePreferencePoints_spec.2.2.2 _ _ 1 2 rfl rfl (by decide) (by decide) (by decide)⟩

/-- C4 counterexample: with `maxResults = 0` and `beamWidth = 0` but one
schedulable show, `generateItineraries` does **not** return an empty list
(it returns the single length-1 itinerary): `K` is clamped into `[1, 200]`
and the initial beam is finalized before any pruning. -/
theorem generateItineraries_K0_W0_nonempty :
    oneShowStateKW0.settings.maxResults = 0 ∧
    oneShowStateKW0.settings.beamWidth = 0 ∧
    generateItineraries oneShowStateKW0 = [oneShowItinerary] := by decide

/-- C6 counterexample: with `maxResults = 0` and one schedulable show the
returned list has length 1, exceeding `min(K, 200) = 0`, because the engine
clamps `K` into `[1, 200]` before truncating. -/
theorem generateItineraries_length_exceeds_K :
    oneShowStateK0.settings.maxResults = 0 ∧
    (generateItineraries oneShowStateK0).length = 1 := by decide

/-- C7 counterexample: on `beamTrapState`, identical except for the beam
width, widening the beam from 1 to 2 strictly **decreases** the best
preference score among the returned itineraries (the wider beam is filled by
the higher-scoring but dead-ending theater-Q expansions, pruning the chain
that leads to the best four-movie itinerary). -/
theorem beamWidth_best_score_not_monotone :
    (beamTrapState 1).settings.beamWidth = 1 ∧
    (beamTrapState 2).settings.beamWidth = 2 ∧
    bestPreferenceScore (generateItineraries (beamTrapState 1)) = 399976 ∧
    bestPreferenceScore (generateItineraries (beamTrapState 2)) = 299988 ∧
    bestPreferenceScore (generateItineraries (beamTrapState 2)) <
      bestPreferenceScore (generateItineraries (beamTrapState 1)) := by decide

/-! ### Helper lemmas about the beam search -/

theorem feasiblePair_start_le {X T : Int} {a b : ScheduledShow}
    (h : FeasiblePair X T a b) : a.startMs ≤ b.startMs := by
  unfold FeasiblePair canTransition at h
  by_cases hba : b.startMs < a.startMs
  · simp [hba] at h
  · exact not_lt.mp hba

theorem feasiblePair_deadline {X T : Int} {a b : ScheduledShow}
    (h : FeasiblePair X T a b) :
    a.endMs + (if a.theaterId = b.theaterId then 0 else T) * 60000 ≤
      b.startMs + X * 60000 := by
  unfold FeasiblePair canTransition at h
  by_cases hba : b.startMs < a.startMs
  · simp [hba] at h
  · simp only [hba, if_false] at h
    simpa using of_decide_eq_true h

theorem mem_nextsOf {shows : List ScheduledShow} {X T : Int} {i j : Nat} {c : Int}
    (h : (j, c) ∈ nextsOf shows X T i) :
    i < j ∧ j < shows.length ∧
      FeasiblePair X T (shows.getD i default) (shows.getD j default) := by
  unfold nextsOf at h
  obtain ⟨j', hj', hsome⟩ := List.mem_filterMap.mp h
  dsimp only at hsome
  split at hsome
  case isTrue hij =>
    split at hsome
    case isTrue hok =>
      obtain ⟨rfl, rfl⟩ : j' = j ∧ (canTransition (shows.getD i default)
          (shows.getD j' default) X T).travelAppliedMins = c := by
        exact Prod.mk.injEq .. ▸ Option.some.injEq .. ▸ hsome
      exact ⟨hij, List.mem_range.mp hj', hok⟩
    case isFalse hok => exact absurd hsome (by simp)
  case isFalse hij => exact absurd hsome (by simp)

theorem chainInv_initial {movies : List Movie} {shows : List ScheduledShow}
    {X T : Int} {p : PartialChain} (hp : p ∈ initialBeam movies shows) :
    ChainInv shows X T p := by
  unfold initialBeam at hp
  obtain ⟨⟨i, s⟩, his, rfl⟩ := List.mem_map.mp hp
  have hget : shows[i]? = some s := List.mem_enum_iff_getElem?.mp his
  refine ⟨by simp, by simp [List.chain'_singleton], by simp, by simp, rfl, rfl, ?_⟩
  simp [List.getD, hget]

theorem chainInv_expand {movies : List Movie} {shows : List ScheduledShow}
    {X T : Int} {p q : PartialChain} (hp : ChainInv shows X T p)
    (hq : q ∈ expandChain movies shows X T p) : ChainInv shows X T q := by
  obtain ⟨hne, hchain, hnm, hns, hum, hus, hlast⟩ := hp
  unfold expandChain at hq
  obtain ⟨⟨j, c⟩, hjc, hsome⟩ := List.mem_filterMap.mp hq
  obtain ⟨hij, hjlt, hfeas⟩ := mem_nextsOf hjc
  dsimp only at hsome
  split at hsome
  case isTrue h1 => exact absurd hsome (by simp)
  case isFalse h1 =>
    split at hsome
    case isTrue h2 => exact absurd hsome (by simp)
    case isFalse h2 =>
      rw [Option.some.injEq] at hsome
      subst hsome
      set nextShow := shows.getD j default with hnext
      have hnotmem_s : nextShow.showtimeId ∉ p.shows.map (·.showtimeId) := by
        intro hmem
        exact h1 (List.elem_iff.mpr (hus ▸ hmem))
      have hnotmem_m : nextShow.movieId ∉ p.shows.map (·.movieId) := by
        intro hmem
        exact h2 (List.elem_iff.mpr (hum ▸ hmem))
      refine ⟨by simp, ?_, ?_, ?_, by simp [hum], by simp [hus], ?_⟩
      · refine List.Chain'.append hchain (List.chain'_singleton _) ?_
        intro x hx y hy
        simp only [List.head?_cons, Option.mem_def, Option.some.injEq] at hy
        rw [hlast] at hx
        simp only [Option.mem_def, Option.some.injEq] at hx
        subst hx; subst hy
        exact hfeas
      · show ((p.shows ++ [nextShow]).map (·.movieId)).Nodup
        rw [List.map_append, List.nodup_append]
        exact ⟨hnm, List.nodup_singleton _, by
          intro x hx hx'
          simp only [List.map_cons, List.map_nil, List.mem_singleton] at hx'
          exact hnotmem_m (hx' ▸ hx)⟩
      · show ((p.shows ++ [nextShow]).map (·.showtimeId)).Nodup
        rw [List.map_append, List.nodup_append]
        exact ⟨hns, List.nodup_singleton _, by
          intro x hx hx'
          simp only [List.map_cons, List.map_nil, List.mem_singleton] at hx'
          exact hnotmem_s (hx' ▸ hx)⟩
      · show (p.shows ++ [nextShow]).getLast? = some (shows.getD j default)
        rw [List.getLast?_concat, hnext]

theorem chainInv_goodShows {shows : List ScheduledShow} {X T : Int}
    {p : PartialChain} (hp : ChainInv shows X T p) : GoodShows X T p.shows :=
  ⟨hp.2.1, hp.2.2.1, hp.2.2.2.1⟩

theorem jsSlice_sublist {α : Type} (l : List α) (e : Int) :
    (jsSlice l e).Sublist l := by
  unfold jsSlice
  split <;> exact List.take_sublist _ _

theorem finalizeAll_nil (acc : List Itinerary × List String) :
    finalizeAll [] acc = acc := rfl

theorem finalizeAll_cons (p : PartialChain) (rest : List PartialChain)
    (acc : List Itinerary × List String) :
    finalizeAll (p :: rest) acc =
      finalizeAll rest
        (if acc.2.contains (itinKey (itineraryOf p)) then acc
         else (acc.1 ++ [itineraryOf p], acc.2 ++ [itinKey (itineraryOf p)])) := rfl

theorem finalizeAll_fst_prefix (beam : List PartialChain)
    (acc : List Itinerary × List String) :
    ∃ r, (finalizeAll beam acc).1 = acc.1 ++ r := by
  induction beam generalizing acc with
  | nil => exact ⟨[], by simp [finalizeAll_nil]⟩
  | cons p rest ih =>
    rw [finalizeAll_cons]
    by_cases hk : acc.2.contains (itinKey (itineraryOf p)) = true
    · rw [if_pos hk]
      exact ih acc
    · rw [if_neg hk]
      obtain ⟨r, hr⟩ := ih (acc.1 ++ [itineraryOf p], acc.2 ++ [itinKey (itineraryOf p)])
      refine ⟨[itineraryOf p] ++ r, ?_⟩
      rw [hr, List.append_assoc]

theorem mem_finalizeAll {beam : List PartialChain}
    {acc : List Itinerary × List String} {it : Itinerary}
    (h : it ∈ (finalizeAll beam acc).1) :
    it ∈ acc.1 ∨ ∃ p ∈ beam, it = itineraryOf p := by
  induction beam generalizing acc with
  | nil => exact Or.inl (by simpa [finalizeAll] using h)
  | cons p rest ih =>
    rw [finalizeAll_cons] at h
    by_cases hk : acc.2.contains (itinKey (itineraryOf p)) = true
    · rw [if_pos hk] at h
      rcases ih h with h' | ⟨q, hq, hq'⟩
      · exact Or.inl h'
      · exact Or.inr ⟨q, List.mem_cons_of_mem _ hq, hq'⟩
    · rw [if_neg hk] at h
      rcases ih h with h' | ⟨q, hq, hq'⟩
      · rcases List.mem_append.mp h' with h'' | h''
        · exact Or.inl h''
        · exact Or.inr ⟨p, List.mem_cons_self _ _, (List.mem_singleton.mp h'')⟩
      · exact Or.inr ⟨q, List.mem_cons_of_mem _ hq, hq'⟩

theorem beamLoop_fst_prefix (movies : List Movie) (shows : List ScheduledShow)
    (X T W : Int) (fuel : Nat) (beam : List PartialChain)
    (acc : List Itinerary × List String) :
    ∃ r, beamLoop movies shows X T W fuel beam acc = acc.1 ++ r := by
  induction fuel generalizing beam acc with
  | zero => exact ⟨[], by simp [beamLoop]⟩
  | succ fuel ih =>
    rw [beamLoop]
    obtain ⟨r₁, hr₁⟩ := finalizeAll_fst_prefix beam acc
    by_cases hexp : (beam.flatMap (expandChain movies shows X T)).isEmpty
    · simp only [hexp, if_true]
      exact ⟨r₁, hr₁⟩
    · simp only [hexp, Bool.false_eq_true, if_false]
      obtain ⟨r₂, hr₂⟩ := ih _ (finalizeAll beam acc)
      exact ⟨r₁ ++ r₂, by rw [hr₂, hr₁, List.append_assoc]⟩

theorem mem_beamLoop {movies : List Movie} {shows : List ScheduledShow}
    {X T W : Int} {fuel : Nat} {beam : List PartialChain}
    {acc : List Itinerary × List String} {it : Itinerary}
    (hbeam : ∀ p ∈ beam, ChainInv shows X T p)
    (hacc : ∀ it' ∈ acc.1, GoodShows X T it'.shows)
    (hit : it ∈ beamLoop movies shows X T W fuel beam acc) :
    GoodShows X T it.shows := by
  induction fuel generalizing beam acc with
  | zero => exact hacc it (by simpa [beamLoop] using hit)
  | succ fuel ih =>
    rw [beamLoop] at hit
    have hacc' : ∀ it' ∈ (finalizeAll beam acc).1, GoodShows X T it'.shows := by
      intro it' hit'
      rcases mem_finalizeAll hit' with h' | ⟨p, hp, rfl⟩
      · exact hacc it' h'
      · exact chainInv_goodShows (hbeam p hp)
    by_cases hexp : (beam.flatMap (expandChain movies shows X T)).isEmpty
    · simp only [hexp, if_true] at hit
      exact hacc' it hit
    · simp only [hexp, Bool.false_eq_true, if_false] at hit
      refine ih ?_ hacc' hit
      intro q hq
      have hq' : q ∈ (beam.flatMap (expandChain movies shows X T)).insertionSort beamLE :=
        (jsSlice_sublist _ _).mem hq
      have hq'' : q ∈ beam.flatMap (expandChain movies shows X T) :=
        (List.mem_insertionSort beamLE).mp hq'
      obtain ⟨p, hp, hqp⟩ := List.mem_flatMap.mp hq''
      exact chainInv_expand (hbeam p hp) hqp

theorem goodShows_generateFinished {state : AppState} {it : Itinerary}
    (h : it ∈ generateFinished state) :
    GoodShows state.settings.trailerLeewayMins state.settings.travelMins it.shows := by
  unfold generateFinished at h
  exact mem_beamLoop (fun p hp => chainInv_initial hp) (fun it' h' => absurd h' (by simp)) h

theorem mem_generateItineraries {state : AppState} {it : Itinerary}
    (h : it ∈ generateItineraries state) : it ∈ generateFinished state := by
  unfold generateItineraries at h
  by_cases hn : (buildScheduledShows state).length = 0
  · simp [hn] at h
  · simp only [hn, if_false] at h
    have h' : it ∈ sortItineraries (generateFinished state) :=
      (jsSlice_sublist _ _).mem h
    exact (List.mem_insertionSort itinLE).mp h'

/-- C1: every itinerary returned by `generateItineraries` has its shows
sorted by non-decreasing start instant and contains no repeated movie
identity and no repeated showtime (event) identity. -/
theorem generateItineraries_sorted_nodup (state : AppState) (it : Itinerary)
    (hit : it ∈ generateItineraries state) :
    it.shows.Pairwise (fun a b => a.startMs ≤ b.startMs) ∧
    (it.shows.map (·.movieId)).Nodup ∧
    (it.shows.map (·.showtimeId)).Nodup := by
  obtain ⟨hchain, hnm, hns⟩ := goodShows_generateFinished (mem_generateItineraries hit)
  refine ⟨?_, hnm, hns⟩
  haveI : IsTrans ScheduledShow (fun a b => a.startMs ≤ b.startMs) :=
    ⟨fun _ _ _ h h' => le_trans h h'⟩
  exact List.chain'_iff_pairwise.mp (hchain.imp fun a b h => feasiblePair_start_le h)

/-- Witness for `generateItineraries_sorted_nodup`: the two-show itinerary
returned on the back-to-back input. -/
theorem generateItineraries_sorted_nodup_witness :
    backToBackItinerary ∈ generateItineraries backToBackState ∧
    (backToBackItinerary.shows.Pairwise (fun a b => a.startMs ≤ b.startMs) ∧
     (backToBackItinerary.shows.map (·.movieId)).Nodup ∧
     (backToBackItinerary.shows.map (·.showtimeId)).Nodup) :=
  ⟨by decide,
   generateItineraries_sorted_nodup backToBackState backToBackItinerary (by decide)⟩

/-- C2: every consecutive pair `(A, B)` of shows in every itinerary returned
by `generateItineraries` satisfies the §4.2 feasibility rule under the run's
settings: `B` does not start before `A`, and `A.end` plus the applied travel
cost (0 if same theater, else `T`, in milliseconds) is at most `B.start + X`. -/
theorem generateItineraries_pairwise_feasible (state : AppState) (it : Itinerary)
    (hit : it ∈ generateItineraries state) :
    it.shows.Chain' (fun a b =>
      a.startMs ≤ b.startMs ∧
      a.endMs + (if a.theaterId = b.theaterId then 0
                 else state.settings.travelMins) * 60000 ≤
        b.startMs + state.settings.trailerLeewayMins * 60000) := by
  obtain ⟨hchain, _, _⟩ := goodShows_generateFinished (mem_generateItineraries hit)
  exact hchain.imp fun a b h => ⟨feasiblePair_start_le h, feasiblePair_deadline h⟩

/-- Witness for `generateItineraries_pairwise_feasible`: the two-show
itinerary returned on the back-to-back input satisfies the feasibility rule. -/
theorem generateItineraries_pairwise_feasible_witness :
    backToBackItinerary ∈ generateItineraries backToBackState ∧
    backToBackItinerary.shows.Chain' (fun a b =>
      a.startMs ≤ b.startMs ∧
      a.endMs + (if a.theaterId = b.theaterId then 0
                 else backToBackState.settings.travelMins) * 60000 ≤
        b.startMs + backToBackState.settings.trailerLeewayMins * 60000) :=
  ⟨by decide,
   generateItineraries_pairwise_feasible backToBackState backToBackItinerary (by decide)⟩

/-! ### Emptiness and truncation lemmas -/

theorem clampInt_bounds (K : Int) : 1 ≤ clampInt K 1 200 ∧ clampInt K 1 200 ≤ 200 := by
  unfold clampInt
  omega

theorem jsSlice_ne_nil {α : Type} {l : List α} {e : Int} (he : 1 ≤ e) (hl : l ≠ []) :
    jsSlice l e ≠ [] := by
  unfold jsSlice
  rw [if_neg (by omega : ¬ e < 0)]
  cases l with
  | nil => exact absurd rfl hl
  | cons x xs =>
    have ht : e.toNat = e.toNat - 1 + 1 := by omega
    rw [ht, List.take_succ_cons]
    simp

theorem jsSlice_length_le {α : Type} (l : List α) {e : Int} (he : 0 ≤ e) :
    (jsSlice l e).length ≤ e.toNat := by
  unfold jsSlice
  rw [if_neg (by omega : ¬ e < 0), List.length_take]
  exact min_le_left _ _

theorem initialBeam_length (movies : List Movie) (shows : List ScheduledShow) :
    (initialBeam movies shows).length = shows.length := by
  simp [initialBeam]

theorem finalizeAll_from_empty_ne_nil {beam : List PartialChain} (hbeam : beam ≠ []) :
    (finalizeAll beam ([], [])).1 ≠ [] := by
  cases beam with
  | nil => exact absurd rfl hbeam
  | cons p rest =>
    rw [finalizeAll_cons,
      if_neg (by simp : ¬ (([], []) : List Itinerary × List String).2.contains
        (itinKey (itineraryOf p)) = true)]
    obtain ⟨r, hr⟩ := finalizeAll_fst_prefix rest
      (([] : List Itinerary) ++ [itineraryOf p],
       ([] : List String) ++ [itinKey (itineraryOf p)])
    rw [hr]
    simp

theorem generateFinished_ne_nil {state : AppState}
    (h : buildScheduledShows state ≠ []) : generateFinished state ≠ [] := by
  unfold generateFinished
  dsimp only
  cases hsl : (buildScheduledShows state).length with
  | zero => exact absurd (List.length_eq_zero.mp hsl) h
  | succ k =>
    rw [beamLoop]
    have hbeam : initialBeam state.movies (buildScheduledShows state) ≠ [] := by
      intro hnil
      have := initialBeam_length state.movies (buildScheduledShows state)
      rw [hnil, hsl] at this
      exact Nat.succ_ne_zero k this.symm
    have hfin := finalizeAll_from_empty_ne_nil hbeam
    by_cases hexp : ((initialBeam state.movies (buildScheduledShows state)).flatMap
        (expandChain state.movies (buildScheduledShows state)
          state.settings.trailerLeewayMins state.settings.travelMins)).isEmpty = true
    · rw [if_pos hexp]
      exact hfin
    · rw [if_neg hexp]
      obtain ⟨r, hr⟩ := beamLoop_fst_prefix state.movies (buildScheduledShows state)
        state.settings.trailerLeewayMins state.settings.travelMins
        state.settings.beamWidth k _
        (finalizeAll (initialBeam state.movies (buildScheduledShows state)) ([], []))
      rw [hr]
      intro hnil
      exact hfin (List.append_eq_nil.mp hnil).1

theorem generateItineraries_ne_nil {state : AppState}
    (h : buildScheduledShows state ≠ []) : generateItineraries state ≠ [] := by
  unfold generateItineraries
  rw [if_neg (by
    intro h0
    exact h (List.length_eq_zero.mp h0))]
  refine jsSlice_ne_nil (clampInt_bounds state.settings.maxResults).1 ?_
  intro hs
  have hlen := congrArg List.length hs
  rw [sortItineraries, List.length_insertionSort, List.length_nil] at hlen
  exact generateFinished_ne_nil h (List.length_eq_zero.mp hlen)

/-- C4 (amended): `generateItineraries` (a total function) returns an empty
list exactly when there are no surviving scheduled instances; in particular
`n = 0` yields an empty result, while `K = 0` or `W = 0` with `n ≥ 1` yields
a non-empty result (`K` is clamped into `[1, 200]` and every beam member is
finalized before pruning). -/
theorem generateItineraries_empty_iff (state : AppState) :
    generateItineraries state = [] ↔ buildScheduledShows state = [] := by
  constructor
  · intro h
    by_contra hb
    exact generateItineraries_ne_nil hb h
  · intro h
    unfold generateItineraries
    rw [h]
    simp

/-- C10: for every input state — whatever the settings, including `K` and `W`
outside any sane range — if `buildScheduledShows` yields at least one
scheduled instance then `generateItineraries` returns a non-empty list, and
the returned list never has more than 200 entries, because the engine clamps
`K` into `[1, 200]` before truncating. -/
theorem generateItineraries_nonempty_and_capped (state : AppState) :
    (buildScheduledShows state ≠ [] → generateItineraries state ≠ []) ∧
    (generateItineraries state).length ≤ 200 := by
  refine ⟨fun h => generateItineraries_ne_nil h, ?_⟩
  unfold generateItineraries
  dsimp only
  split
  · simp
  · have h1 := jsSlice_length_le (sortItineraries (generateFinished state))
      (e := clampInt state.settings.maxResults 1 200)
      (by have := (clampInt_bounds state.settings.maxResults).1; omega)
    have h2 := (clampInt_bounds state.settings.maxResults).2
    omega

/-- Witness for `generateItineraries_nonempty_and_capped`: the one-show
state has a non-empty schedule, hence a non-empty result. -/
theorem generateItineraries_nonempty_and_capped_witness :
    generateItineraries oneShowState ≠ [] ∧
    (generateItineraries oneShowState).length ≤ 200 :=
  ⟨(generateItineraries_nonempty_and_capped oneShowState).1 (by decide),
   (generateItineraries_nonempty_and_capped oneShowState).2⟩

theorem itinLE_iff (a b : Itinerary) :
    itinLE a b ↔ (b.preferenceScore < a.preferenceScore ∨
      (b.preferenceScore = a.preferenceScore ∧
        (b.movieCount < a.movieCount ∨
          (b.movieCount = a.movieCount ∧ a.finishMs ≤ b.finishMs)))) := by
  unfold itinLE itinCmpVal
  split_ifs <;> omega

/-- C6 (amended): the returned list is sorted by preference score descending,
then movie count descending, then finish instant ascending; it is truncated
to `K` clamped into `[1, 200]`, so its length is at most
`clampInt K 1 200 = min(max(K,1), 200)` and at most the number of distinct
deduplicated chains found by the search. -/
theorem generateItineraries_sorted_truncated (state : AppState) :
    (generateItineraries state).Pairwise (fun a b =>
      b.preferenceScore < a.preferenceScore ∨
      (b.preferenceScore = a.preferenceScore ∧
        (b.movieCount < a.movieCount ∨
          (b.movieCount = a.movieCount ∧ a.finishMs ≤ b.finishMs)))) ∧
    ((generateItineraries state).length : Int) ≤
      clampInt state.settings.maxResults 1 200 ∧
    (generateItineraries state).length ≤ (generateFinished state).length := by
  refine ⟨?_, ?_, ?_⟩
  · have hs : (sortItineraries (generateFinished state)).Pairwise itinLE :=
      List.sorted_insertionSort itinLE _
    unfold generateItineraries
    dsimp only
    split
    · simp
    · exact (hs.sublist (jsSlice_sublist _ _)).imp fun h => (itinLE_iff _ _).mp h
  · unfold generateItineraries
    dsimp only
    split
    · have := clampInt_bounds state.settings.maxResults
      simp only [List.length_nil]
      omega
    · have h1 := @jsSlice_length_le Itinerary (sortItineraries (generateFinished state))
        (clampInt state.settings.maxResults 1 200)
        (by have := (clampInt_bounds state.settings.maxResults).1; omega)
      have h2 := (clampInt_bounds state.settings.maxResults).1
      omega
  · unfold generateItineraries
    dsimp only
    split
    · simp
    · have h1 := (jsSlice_sublist (sortItineraries (generateFinished state))
        (clampInt state.settings.maxResults 1 200)).length_le
      rw [sortItineraries, List.length_insertionSort] at h1
      exact h1

/-! ### Stability of the schedule-builder sort -/

theorem insertionSort_filter_tied {α : Type} (r : α → α → Prop) [DecidableRel r]
    [IsTotal α r] [IsTrans α r] (p : α → Bool)
    (hp : ∀ a b, p a = true → p b = true → r a b) (l : List α) :
    (l.insertionSort r).filter p = l.filter p := by
  have hpair : (l.filter p).Pairwise r :=
    List.pairwise_of_forall_mem_list fun a ha b hb =>
      hp a b (List.of_mem_filter ha) (List.of_mem_filter hb)
  have h2 : (l.filter p).Sublist (l.insertionSort r) :=
    List.sublist_insertionSort hpair (List.filter_sublist l)
  have h3 : (l.filter p).filter p = l.filter p :=
    List.filter_eq_self.mpr fun a ha => List.of_mem_filter ha
  have h4 : (l.filter p).Sublist ((l.insertionSort r).filter p) := by
    have := h2.filter p
    rwa [h3] at this
  have h5 : ((l.insertionSort r).filter p).Perm (l.filter p) :=
    (List.perm_insertionSort r l).filter p
  exact (h4.eq_of_length h5.length_eq.symm).symm

theorem resolveShowtime_eq_none_iff (movies : List Movie) (st : Showtime) :
    resolveShowtime movies st = none ↔
      (mapGet movies st.movieId = none ∨
       parseLocalDateTimeToMs st.startLocal = none) := by
  unfold resolveShowtime
  rcases mapGet movies st.movieId with _ | m
  · simp
  · rcases parseLocalDateTimeToMs st.startLocal with _ | ms <;> simp

theorem resolveShowtime_eq_some (movies : List Movie) (st : Showtime)
    (m : Movie) (ms : Int) (hm : mapGet movies st.movieId = some m)
    (hp : parseLocalDateTimeToMs st.startLocal = some ms) :
    resolveShowtime movies st = some
      { showtimeId := st.id, movieId := st.movieId, theaterId := st.theaterId,
        startMs := ms, endMs := ms + m.runtimeMins * 60000 } := by
  unfold resolveShowtime
  rw [hm, hp]

/-- C8: `buildScheduledShows` returns exactly the showtime entries whose movie
reference resolves and whose start timestamp parses (a permutation of the
`filterMap` survivors, so nothing else is ever produced and no error is
raised), sorted ascending by start instant with ties kept in stable input
order (the filtered subsequence at any start instant equals that of the
unsorted survivor list); an entry is dropped exactly when its movie lookup or
its timestamp parse fails, and a surviving entry's end instant is its start
instant plus the movie's runtime in minutes (converted to milliseconds). -/
theorem buildScheduledShows_spec (state : AppState) :
    (buildScheduledShows state).Perm
      (state.showtimes.filterMap (resolveShowtime state.movies)) ∧
    (buildScheduledShows state).Pairwise (fun a b => a.startMs ≤ b.startMs) ∧
    (∀ v : Int, (buildScheduledShows state).filter (fun s => decide (s.startMs = v)) =
      (state.showtimes.filterMap (resolveShowtime state.movies)).filter
        (fun s => decide (s.startMs = v))) ∧
    (∀ st : Showtime, resolveShowtime state.movies st = none ↔
      (mapGet state.movies st.movieId = none ∨
       parseLocalDateTimeToMs st.startLocal = none)) ∧
    (∀ (st : Showtime) (m : Movie) (ms : Int),
      mapGet state.movies st.movieId = some m →
      parseLocalDateTimeToMs st.startLocal = some ms →
      resolveShowtime state.movies st = some
        { showtimeId := st.id, movieId := st.movieId, theaterId := st.theaterId,
          startMs := ms, endMs := ms + m.runtimeMins * 60000 }) := by
  refine ⟨List.perm_insertionSort showLE _, List.sorted_insertionSort showLE _, ?_,
    fun st => resolveShowtime_eq_none_iff state.movies st,
    fun st m ms hm hp => resolveShowtime_eq_some state.movies st m ms hm hp⟩
  intro v
  exact insertionSort_filter_tied showLE (fun s => decide (s.startMs = v))
    (fun a b ha hb => by
      have ha' : a.startMs = v := of_decide_eq_true ha
      have hb' : b.startMs = v := of_decide_eq_true hb
      show a.startMs ≤ b.startMs
      omega)
    (state.showtimes.filterMap (resolveShowtime state.movies))

/-- Witness for `buildScheduledShows_spec`: on the one-show state the single
entry resolves to a scheduled instance starting at 10:00 epoch day one and
ending one hour (the runtime) later. -/
theorem buildScheduledShows_spec_witness :
    resolveShowtime oneShowState.movies
      { id := "s1", movieId := "m1", theaterId := "t1",
        startLocal := "1970-01-01T10:00" } =
      some { showtimeId := "s1", movieId := "m1", theaterId := "t1",
             startMs := 36000000, endMs := 36000000 + 60 * 60000 } :=
  (buildScheduledShows_spec oneShowState).2.2.2.2
    { id := "s1", movieId := "m1", theaterId := "t1",
      startLocal := "1970-01-01T10:00" }
    { id := "m1", title := "M1", runtimeMins := 60 } 36000000
    (by decide) (by decide)

/-! ### The best returned score never falls below the best single score -/

theorem initialBeam_keys (movies : List Movie) (shows : List ScheduledShow) :
    (initialBeam movies shows).map (fun q => itinKey (itineraryOf q)) =
      shows.map (·.showtimeId) := by
  unfold initialBeam
  rw [List.map_map]
  have h1 : ((fun q => itinKey (itineraryOf q)) ∘ fun (p : Nat × ScheduledShow) =>
      ({ lastIdx := p.1, usedMovieIds := [p.2.movieId],
         usedShowtimeIds := [p.2.showtimeId], shows := [p.2],
         preferenceScore := showPoints movies p.2,
         totalTravelMins := 0 } : PartialChain)) =
      (fun s => s.showtimeId) ∘ Prod.snd := by
    funext p
    simp [itinKey, itineraryOf, String.intercalate, String.intercalate.go]
  rw [h1, ← List.map_map, List.enum_map_snd]

theorem filterMap_resolveShowtime_ids_sublist (movies : List Movie)
    (sts : List Showtime) :
    ((sts.filterMap (resolveShowtime movies)).map (·.showtimeId)).Sublist
      (sts.map (·.id)) := by
  induction sts with
  | nil => simp
  | cons st rest ih =>
    rw [List.filterMap_cons]
    cases hr : resolveShowtime movies st with
    | none => exact ih.cons _
    | some sh =>
      have hid : sh.showtimeId = st.id := by
        unfold resolveShowtime at hr
        cases hm : mapGet movies st.movieId with
        | none => rw [hm] at hr; exact absurd hr (by simp)
        | some m =>
          rw [hm] at hr
          cases hpp : parseLocalDateTimeToMs st.startLocal with
          | none => rw [hpp] at hr; exact absurd hr (by simp)
          | some ms =>
            rw [hpp, Option.some.injEq] at hr
            rw [← hr]
      rw [List.map_cons, List.map_cons, hid]
      exact ih.cons₂ _

theorem buildScheduledShows_ids_nodup {state : AppState}
    (hids : (state.showtimes.map (·.id)).Nodup) :
    ((buildScheduledShows state).map (·.showtimeId)).Nodup := by
  have h2 : (((state.showtimes.filterMap (resolveShowtime state.movies)).map
      (·.showtimeId))).Nodup :=
    (filterMap_resolveShowtime_ids_sublist state.movies state.showtimes).nodup hids
  have h3 : (((state.showtimes.filterMap (resolveShowtime state.movies)).map
      (·.showtimeId))).Perm ((buildScheduledShows state).map (·.showtimeId)) :=
    ((List.perm_insertionSort showLE _).map _).symm
  exact h3.nodup h2

theorem itineraryOf_mem_finalizeAll {beam : List PartialChain}
    {acc : List Itinerary × List String} {p : PartialChain} (hp : p ∈ beam)
    (hnodup : (beam.map fun q => itinKey (itineraryOf q)).Nodup)
    (hkey : itinKey (itineraryOf p) ∉ acc.2) :
    itineraryOf p ∈ (finalizeAll beam acc).1 := by
  induction beam generalizing acc with
  | nil => exact absurd hp (List.not_mem_nil p)
  | cons q rest ih =>
    rw [finalizeAll_cons]
    rcases List.mem_cons.mp hp with rfl | hp'
    · rw [if_neg (by
        intro hc
        exact hkey (List.elem_iff.mp hc))]
      obtain ⟨r, hr⟩ := finalizeAll_fst_prefix rest
        (acc.1 ++ [itineraryOf p], acc.2 ++ [itinKey (itineraryOf p)])
      rw [hr]
      simp
    · have hnr : (rest.map fun q => itinKey (itineraryOf q)).Nodup :=
        (List.nodup_cons.mp hnodup).2
      have hqp : itinKey (itineraryOf q) ≠ itinKey (itineraryOf p) := by
        have hq_not := (List.nodup_cons.mp hnodup).1
        intro he
        refine hq_not ?_
        show itinKey (itineraryOf q) ∈ List.map (fun q => itinKey (itineraryOf q)) rest
        rw [he]
        exact List.mem_map_of_mem _ hp'
      by_cases hk : acc.2.contains (itinKey (itineraryOf q)) = true
      · rw [if_pos hk]
        exact ih hp' hnr hkey
      · rw [if_neg hk]
        refine ih hp' hnr ?_
        intro hmem
        rcases List.mem_append.mp hmem with h1 | h1
        · exact hkey h1
        · exact hqp (List.mem_singleton.mp h1).symm

theorem single_mem_generateFinished {state : AppState}
    (hids : (state.showtimes.map (·.id)).Nodup)
    {s : ScheduledShow} (hs : s ∈ buildScheduledShows state) :
    ∃ it ∈ generateFinished state,
      it.preferenceScore = showPoints state.movies s := by
  obtain ⟨i, hi⟩ := List.mem_iff_getElem?.mp hs
  have henum : (i, s) ∈ (buildScheduledShows state).enum :=
    List.mem_enum_iff_getElem?.mpr hi
  set pS : PartialChain :=
    { lastIdx := i, usedMovieIds := [s.movieId], usedShowtimeIds := [s.showtimeId],
      shows := [s], preferenceScore := showPoints state.movies s,
      totalTravelMins := 0 } with hpS
  have hpmem : pS ∈ initialBeam state.movies (buildScheduledShows state) :=
    List.mem_map_of_mem _ henum
  have hkeys : ((initialBeam state.movies (buildScheduledShows state)).map
      fun q => itinKey (itineraryOf q)).Nodup := by
    rw [initialBeam_keys]
    exact buildScheduledShows_ids_nodup hids
  refine ⟨itineraryOf pS, ?_, rfl⟩
  unfold generateFinished
  dsimp only
  cases hsl : (buildScheduledShows state).length with
  | zero =>
    exact absurd (List.length_eq_zero.mp hsl) (List.ne_nil_of_mem hs)
  | succ k =>
    rw [beamLoop]
    have hmemfin : itineraryOf pS ∈
        (finalizeAll (initialBeam state.movies (buildScheduledShows state))
          ([], [])).1 :=
      itineraryOf_mem_finalizeAll hpmem hkeys (by simp)
    by_cases hexp : ((initialBeam state.movies (buildScheduledShows state)).flatMap
        (expandChain state.movies (buildScheduledShows state)
          state.settings.trailerLeewayMins state.settings.travelMins)).isEmpty = true
    · rw [if_pos hexp]
      exact hmemfin
    · rw [if_neg hexp]
      obtain ⟨r, hr⟩ := beamLoop_fst_prefix state.movies (buildScheduledShows state)
        state.settings.trailerLeewayMins state.settings.travelMins
        state.settings.beamWidth k _
        (finalizeAll (initialBeam state.movies (buildScheduledShows state)) ([], []))
      rw [hr]
      exact List.mem_append_left _ hmemfin

theorem sortItineraries_head_max {its : List Itinerary} {x : Itinerary}
    {rest : List Itinerary} (h : sortItineraries its = x :: rest) :
    ∀ it ∈ its, it.preferenceScore ≤ x.preferenceScore := by
  intro it hit
  have hsorted : (x :: rest).Pairwise itinLE :=
    h ▸ List.sorted_insertionSort itinLE its
  have hmem : it ∈ x :: rest := h ▸ (List.mem_insertionSort itinLE).mpr hit
  rcases List.mem_cons.mp hmem with rfl | hm
  · exact le_refl _
  · have hle := List.rel_of_sorted_cons hsorted it hm
    have := (itinLE_iff x it).mp hle
    omega

theorem head_mem_jsSlice {α : Type} {x : α} {rest : List α} {e : Int}
    (he : 1 ≤ e) : x ∈ jsSlice (x :: rest) e := by
  unfold jsSlice
  rw [if_neg (by omega : ¬ e < 0)]
  have ht : e.toNat = e.toNat - 1 + 1 := by omega
  rw [ht, List.take_succ_cons]
  exact List.mem_cons_self _ _

/-- C7 (amended): the best-found preference score is not monotone in the beam
width (see the counterexample), but for every beam width and every input whose
event entries carry distinct identities, the returned list contains an
itinerary whose preference score is at least the seed score of every single
scheduled instance — length-1 chains are always finalized before pruning, so
the best returned score never falls below the best single-instance score,
independently of `W`. -/
theorem bestScore_ge_best_single (state : AppState)
    (hids : (state.showtimes.map (·.id)).Nodup)
    (s : ScheduledShow) (hs : s ∈ buildScheduledShows state) :
    ∃ it ∈ generateItineraries state,
      showPoints state.movies s ≤ it.preferenceScore := by
  obtain ⟨it₀, hit₀, hscore⟩ := single_mem_generateFinished hids hs
  have hne : sortItineraries (generateFinished state) ≠ [] := by
    intro h0
    have hlen := congrArg List.length h0
    rw [sortItineraries, List.length_insertionSort, List.length_nil] at hlen
    exact (List.ne_nil_of_mem hit₀) (List.length_eq_zero.mp hlen)
  obtain ⟨x, rest, hx⟩ := List.exists_cons_of_ne_nil hne
  refine ⟨x, ?_, ?_⟩
  · unfold generateItineraries
    dsimp only
    rw [if_neg (by
      intro h0
      exact (List.ne_nil_of_mem hs) (List.length_eq_zero.mp h0))]
    rw [hx]
    exact head_mem_jsSlice (clampInt_bounds state.settings.maxResults).1
  · rw [← hscore]
    exact sortItineraries_head_max hx it₀ hit₀

/-- Witness for `bestScore_ge_best_single`: on the one-show state there is a
returned itinerary scoring at least the single instance's seed score. -/
theorem bestScore_ge_best_single_witness :
    ∃ it ∈ generateItineraries oneShowState,
      showPoints oneShowState.movies
        { showtimeId := "s1", movieId := "m1", theaterId := "t1",
          startMs := 36000000, endMs := 39600000 } ≤ it.preferenceScore :=
  bestScore_ge_best_single oneShowState (by decide)
    { showtimeId := "s1", movieId := "m1", theaterId := "t1",
      startMs := 36000000, endMs := 39600000 } (by decide)

end MoviePathways
